import Mathlib

/-!
Verification of the voxel-potential core of the cryojax repository.

This file is a shallow embedding, in Lean 4, of the voxel-based
scattering-potential representations and the coordinate-resampling engine
of cryojax:

* `src/cryojax/simulator/_potential/_voxel_potential.py`
  (the four voxel representations, their factories, `rotate_to_pose`,
  and the atom-to-grid Gaussian rasterizer), and
* `src/cryojax/image/_map_coordinates.py`
  (the generic interpolation routine `map_coordinates` for orders 0, 1, 3,
  including the tridiagonal cubic-spline coefficient solve).

Machine floating point is idealized as exact arithmetic: executable
definitions work over `ℚ` (the rational numbers), and the transcendental
Gaussian rasterizer over `ℝ`.  Multi-dimensional `jax` arrays are embedded
either as nested lists (where the code accepts arrays of any shape) or as
functions out of `Fin`-index types (where shapes are fixed).  Fallible code
returns `Except`.

Theorems named `claim_C*` settle the correspondingly numbered sentences of
the specification; `*_witness` and `*_counterexample` theorems instantiate
them on concrete inputs.
-/

namespace CryojaxSpec

/-! ### Pose capability and the geometry value objects

`Pose.rotate_coordinates` is an external capability consumed by the
potential representations (`cryojax.simulator._pose.AbstractPose`): a map
taking a coordinate array and an `inverse` flag to a rotated array.  The
geometry value objects (`FrequencySlice`, `CoordinateGrid`,
`CoordinateList`) pair a numeric array with static metadata; `.get()`
returns the wrapped array. -/

/-- External pose capability: `pose.rotate_coordinates(array, inverse)`. -/
structure AbstractPose (A : Type) where
  rotate_coordinates : A → Bool → A

/-- Frequency-slice coordinate object: an array plus static metadata. -/
structure FrequencySlice (A : Type) (M : Type) where
  array : A
  metadata : M

/-- The `.get()` capability of a `FrequencySlice` returns its array. -/
def FrequencySlice.get {A M : Type} (s : FrequencySlice A M) : A := s.array

/-- Coordinate-grid coordinate object: an array plus static metadata. -/
structure CoordinateGrid (A : Type) (M : Type) where
  array : A
  metadata : M

/-- The `.get()` capability of a `CoordinateGrid` returns its array. -/
def CoordinateGrid.get {A M : Type} (s : CoordinateGrid A M) : A := s.array

/-- Coordinate-list coordinate object: an array plus static metadata. -/
structure CoordinateList (A : Type) (M : Type) where
  array : A
  metadata : M

/-- The `.get()` capability of a `CoordinateList` returns its array. -/
def CoordinateList.get {A M : Type} (s : CoordinateList A M) : A := s.array

/-! ### The four voxel-potential representations (fields and `rotate_to_pose`)

Each structure mirrors the fields of the corresponding Python class in
`_voxel_potential.py`; the array payloads are type parameters.
`rotate_to_pose` is `eqx.tree_at(lambda d: d.<geometry>.array, self,
pose.rotate_coordinates(self.<geometry>.get(), inverse=...))`: it rebuilds
the instance with only the geometry field's array leaf replaced. -/

/-- `FourierVoxelGrid`: fourier voxel grid, frequency slice, voxel size. -/
structure FourierVoxelGrid (V A M R : Type) where
  fourier_voxel_grid : V
  frequency_slice : FrequencySlice A M
  voxel_size : R

/-- `AbstractFourierVoxelGrid.rotate_to_pose` as inherited by
`FourierVoxelGrid`: replace the frequency slice's array by
`pose.rotate_coordinates(self.frequency_slice.get(), inverse=True)`. -/
def FourierVoxelGrid.rotate_to_pose {V A M R : Type}
    (self : FourierVoxelGrid V A M R) (pose : AbstractPose A) :
    FourierVoxelGrid V A M R :=
  { self with
    frequency_slice :=
      { self.frequency_slice with
        array := pose.rotate_coordinates self.frequency_slice.get true } }

/-- `FourierVoxelGridInterpolator`: spline coefficients, frequency slice,
voxel size. -/
structure FourierVoxelGridInterpolator (V A M R : Type) where
  coefficients : V
  frequency_slice : FrequencySlice A M
  voxel_size : R

/-- `AbstractFourierVoxelGrid.rotate_to_pose` as inherited by
`FourierVoxelGridInterpolator` (`inverse=True`). -/
def FourierVoxelGridInterpolator.rotate_to_pose {V A M R : Type}
    (self : FourierVoxelGridInterpolator V A M R) (pose : AbstractPose A) :
    FourierVoxelGridInterpolator V A M R :=
  { self with
    frequency_slice :=
      { self.frequency_slice with
        array := pose.rotate_coordinates self.frequency_slice.get true } }

/-- `RealVoxelGrid`: real voxel grid, coordinate grid, voxel size. -/
structure RealVoxelGrid (V A M R : Type) where
  real_voxel_grid : V
  coordinate_grid : CoordinateGrid A M
  voxel_size : R

/-- `RealVoxelGrid.rotate_to_pose`: replace the coordinate grid's array by
`pose.rotate_coordinates(self.coordinate_grid.get(), inverse=False)`. -/
def RealVoxelGrid.rotate_to_pose {V A M R : Type}
    (self : RealVoxelGrid V A M R) (pose : AbstractPose A) :
    RealVoxelGrid V A M R :=
  { self with
    coordinate_grid :=
      { self.coordinate_grid with
        array := pose.rotate_coordinates self.coordinate_grid.get false } }

/-- `RealVoxelCloud`: voxel weights, coordinate list, voxel size. -/
structure RealVoxelCloud (V A M R : Type) where
  voxel_weights : V
  coordinate_list : CoordinateList A M
  voxel_size : R

/-- `RealVoxelCloud.rotate_to_pose`: replace the coordinate list's array by
`pose.rotate_coordinates(self.coordinate_list.get(), inverse=False)`. -/
def RealVoxelCloud.rotate_to_pose {V A M R : Type}
    (self : RealVoxelCloud V A M R) (pose : AbstractPose A) :
    RealVoxelCloud V A M R :=
  { self with
    coordinate_list :=
      { self.coordinate_list with
        array := pose.rotate_coordinates self.coordinate_list.get false } }

/-! ### map_coordinates (`cryojax/image/_map_coordinates.py`)

One-dimensional embedding of `_map_coordinates` over `ℚ`, with the default
out-of-bounds mode `"fill"`.  Arrays are `List ℚ`; `coordinates` is the
sequence of per-axis coordinate arrays (length-checked against the input's
number of dimensions, which is 1 here).  The tridiagonal
spline-coefficient solve is generic over a field, since the source applies
it to complex grids as well (`FourierVoxelGridInterpolator`). -/

/-- `_round_half_away_from_zero` on a non-integer dtype: `jax.lax.round`,
which rounds half away from zero. -/
def round_half_away_from_zero (q : ℚ) : ℤ :=
  if 0 ≤ q then ⌊q + 1 / 2⌋ else ⌈q - 1 / 2⌉

/-- An `x.at[i].get(mode="fill", fill_value=cval)` gather on a 1-D array:
negative indices in `[-n, 0)` index from the end as usual, any other
out-of-bounds index produces the fill value. -/
def get_with_fill (input : List ℚ) (i : ℤ) (cval : ℚ) : ℚ :=
  if 0 ≤ i ∧ i < input.length then input.getD i.toNat 0
  else if -(input.length : ℤ) ≤ i ∧ i < 0 then
    input.getD (i + input.length).toNat 0
  else cval

/-- `_nearest_indices_and_weights`: round to the nearest integer index,
weight 1. -/
def nearest_indices_and_weights (coordinate : ℚ) : List (ℤ × ℚ) :=
  [(round_half_away_from_zero coordinate, 1)]

/-- `_linear_indices_and_weights`: floor/ceil neighbor indices with weights
`(1 - frac, frac)`. -/
def linear_indices_and_weights (coordinate : ℚ) : List (ℤ × ℚ) :=
  [(⌊coordinate⌋, 1 - (coordinate - ⌊coordinate⌋)),
   (⌊coordinate⌋ + 1, coordinate - ⌊coordinate⌋)]

/-- The Thomas-algorithm solve of the tridiagonal system whose current head
diagonal entry is `d`, remaining diagonal entries are `4`, and off-diagonal
entries are `1`, with right-hand side `y0 :: ys`.  Eliminating the first
unknown of such a system leaves a system of the same form with head
diagonal `4 - 1/d` and an adjusted second right-hand side. -/
def solveAuxCore {K : Type} [Field K] (d : K) (y0 : K) : List K → List K
  | [] => [y0 / d]
  | y1 :: ys =>
    let rest := solveAuxCore (4 - 1 / d) (y1 - y0 / d) ys
    (y0 - rest.headD 0) / d :: rest

/-- The Thomas-algorithm solve of the tridiagonal system with head diagonal
`d`, remaining diagonal entries `4`, and off-diagonal entries `1`.  This
models `lx.linear_solve` applied to the operator built by `_build_operator`
(diagonal `4`, off-diagonals `1`). -/
def solveAux {K : Type} [Field K] (d : K) : List K → List K
  | [] => []
  | y0 :: ys => solveAuxCore d y0 ys

/-- `lx.linear_solve` with the `_build_operator` matrix (diagonal value 4,
off-diagonal values 1, size `y.length`). -/
def linear_solve {K : Type} [Field K] (y : List K) : List K :=
  solveAux 4 y

/-- `_construct_vector`: the interior samples `data[1:-1]`, with index `0`
set to `data[1] - c2` and then index `-1` set to `data[-2] - cnp2` (for a
length-1 vector the second write overwrites the first, as in the source). -/
def construct_vector {K : Type} [Field K] (data : List K) (c2 cnp2 : K) :
    List K :=
  let yvec := (data.drop 1).dropLast
  let yvec := yvec.set 0 (data.getD 1 0 - c2)
  yvec.set (yvec.length - 1) (data.getD (data.length - 2) 0 - cnp2)

/-- `_solve_coefficients`: boundary coefficients `c2 = data[0]/6`,
`cnp2 = data[-1]/6`; solve the tridiagonal system for the interior
coefficients; then prepend `c1 = 2*c2 - cs[0]` and append
`cnp3 = 2*cnp2 - cs[-1]`. -/
def solve_coefficients {K : Type} [Field K] (data : List K) : List K :=
  let c2 := 1 / 6 * data.getD 0 0
  let cnp2 := 1 / 6 * data.getD (data.length - 1) 0
  let yvec := construct_vector data c2 cnp2
  let cs := linear_solve yvec
  let c1 := 2 * c2 - cs.headD 0
  let cnp3 := 2 * cnp2 - cs.getLastD 0
  [c1, c2] ++ cs ++ [cnp2, cnp3]

/-- `_spline_basis`: the cubic B-spline basis, written with the same nested
`where` structure as the source. -/
def spline_basis (t : ℚ) : ℚ :=
  if |t| ≥ 1 then (if |t| ≤ 2 then (2 - |t|) ^ 3 else 0)
  else (if |t| ≤ 1 then 4 - 6 * |t| ^ 2 + 3 * |t| ^ 3 else 0)

/-- `_spline_point` in one dimension: gather the 4 coefficients at indices
`floor(x) + {0,1,2,3}`, weight each by `B(x - index + 1)`, and sum. -/
def spline_point (coefficients : List ℚ) (coordinate : ℚ) (cval : ℚ) : ℚ :=
  ((List.range 4).map (fun (o : ℕ) =>
    get_with_fill coefficients (⌊coordinate⌋ + (o : ℤ)) cval *
      spline_basis (coordinate - ((⌊coordinate⌋ + (o : ℤ) : ℤ) : ℚ) + 1))).sum

/-- `_cubic_spline` in one dimension: solve for the spline coefficients of
the input, then evaluate every output point. -/
def cubic_spline (input : List ℚ) (coordinates : List ℚ) (cval : ℚ) :
    List ℚ :=
  let coefficients := solve_coefficients input
  coordinates.map (fun coord => spline_point coefficients coord cval)

/-- Error outcomes of `_map_coordinates`. -/
inductive MapCoordinatesError : Type
  | valueError
  | notImplementedError
deriving DecidableEq

/-- Decidable equality of `Except` results, so that concrete runs of the
fallible embedded functions can be checked by `decide`. -/
instance {ε α : Type} [DecidableEq ε] [DecidableEq α] :
    DecidableEq (Except ε α) := fun a b =>
  match a, b with
  | .ok x, .ok y => decidable_of_iff (x = y) (by simp)
  | .error x, .error y => decidable_of_iff (x = y) (by simp)
  | .ok _, .error _ => isFalse (by simp)
  | .error _, .ok _ => isFalse (by simp)

/-- One output point of the order-0/1 path: the sum, over the (index,
weight) pairs produced for its coordinate, of `weight * gather(index)`. -/
def weighted_contributions (input : List ℚ) (pairs : List (ℤ × ℚ))
    (cval : ℚ) : ℚ :=
  (pairs.map (fun p => p.2 * get_with_fill input p.1 cval)).sum

/-- `_map_coordinates` on a 1-dimensional input with mode `"fill"`: first
the coordinate-count check (`ValueError`), then dispatch on `order`, with
orders outside {0, 1, 3} rejected (`NotImplementedError`). -/
def map_coordinates (input : List ℚ) (coordinates : List (List ℚ))
    (order : ℕ) (cval : ℚ) : Except MapCoordinatesError (List ℚ) :=
  if coordinates.length ≠ 1 then
    Except.error MapCoordinatesError.valueError
  else if order = 0 then
    Except.ok ((coordinates.headD []).map (fun c =>
      weighted_contributions input (nearest_indices_and_weights c) cval))
  else if order = 1 then
    Except.ok ((coordinates.headD []).map (fun c =>
      weighted_contributions input (linear_indices_and_weights c) cval))
  else if order = 3 then
    Except.ok (cubic_spline input (coordinates.headD []) cval)
  else
    Except.error MapCoordinatesError.notImplementedError

/-! ### Spline coefficients of a 3-D grid (`FourierVoxelGridInterpolator`)

`FourierVoxelGridInterpolator.__init__` stores
`compute_spline_coefficients(fourier_voxel_grid)`.
`compute_spline_coefficients` is imported from `cryojax.image` and its file
is not under `src/`; per the spec (§4.3, §4.6 and the invariant
`coefficients.shape[i] == logical_shape[i] + 2`) it performs the same
per-axis not-a-knot solve as `_spline_coefficients` in
`_map_coordinates.py`: the 1-D solve `_solve_coefficients` is applied along
every axis in turn, innermost axis first, growing each axis extent by 2.
3-D arrays are nested lists; the per-axis application is expressed with an
outer-two-axes transpose. -/

/-- Row-major transpose of the outer two axes of a nested list (rectangular
in the intended use; `d` is the padding default, never read for
rectangular input). -/
def transpose2 {α : Type} (d : α) (rows : List (List α)) : List (List α) :=
  (List.range (rows.headD []).length).map (fun j => rows.map (fun r => r.getD j d))

/-- Apply the 1-D `_solve_coefficients` along the first axis of a 2-D
plane: transpose, solve each line, transpose back. -/
def solve_coefficients_axis1 {K : Type} [Field K] (plane : List (List K)) :
    List (List K) :=
  transpose2 0 ((transpose2 0 plane).map solve_coefficients)

/-- Modelled from the spec: `compute_spline_coefficients` (from
`cryojax.image`, not under `src/`) solves for cubic-spline coefficients of
a 3-D grid by applying `_solve_coefficients` along axis 2, then axis 1,
then axis 0 — the axis order of `_spline_coefficients` — growing every axis
extent by 2. -/
def compute_spline_coefficients {K : Type} [Field K]
    (g : List (List (List K))) : List (List (List K)) :=
  let g2 := g.map (fun plane => plane.map solve_coefficients)
  let g1 := g2.map solve_coefficients_axis1
  transpose2 [] ((transpose2 [] g1).map solve_coefficients_axis1)

/-- The `.shape` of a nested-list 3-D array (lengths of the three nesting
levels, read off the first elements as `jax` shapes are rectangular). -/
def shape3 {α : Type} (g : List (List (List α))) : List ℕ :=
  [g.length, (g.headD []).length, ((g.headD []).headD []).length]

/-- Rectangularity of a nested-list 3-D array with the given extents. -/
def IsCuboid {α : Type} (n1 n2 n3 : ℕ) (g : List (List (List α))) : Prop :=
  g.length = n1 ∧ ∀ p ∈ g, p.length = n2 ∧ ∀ r ∈ p, r.length = n3

/-- `FourierVoxelGridInterpolator.__init__`: the constructor does not store
the `fourier_voxel_grid` argument; it stores the spline coefficients
computed from it, together with the frequency slice and voxel size. -/
def FourierVoxelGridInterpolator.of_fourier_voxel_grid {K : Type} [Field K]
    {A M : Type} (fourier_voxel_grid : List (List (List K)))
    (frequency_slice : FrequencySlice A M) (voxel_size : ℚ) :
    FourierVoxelGridInterpolator (List (List (List K))) A M ℚ :=
  ⟨compute_spline_coefficients fourier_voxel_grid, frequency_slice,
    voxel_size⟩

/-- `FourierVoxelGridInterpolator.shape`:
`tuple([s - 2 for s in self.coefficients.shape])`. -/
def FourierVoxelGridInterpolator.shape {K A M R : Type}
    (self : FourierVoxelGridInterpolator (List (List (List K))) A M R) :
    List ℕ :=
  (shape3 self.coefficients).map (fun s => s - 2)

/-- A concrete all-zero 3x3x3 grid used to instantiate shape claims. -/
def exampleCube3 : List (List (List ℚ)) :=
  [[[0, 0, 0], [0, 0, 0], [0, 0, 0]],
   [[0, 0, 0], [0, 0, 0], [0, 0, 0]],
   [[0, 0, 0], [0, 0, 0], [0, 0, 0]]]

/-- Rectangularity is checkable on concrete grids. -/
instance {α : Type} (n1 n2 n3 : ℕ) (g : List (List (List α))) :
    Decidable (IsCuboid n1 n2 n3 g) :=
  decidable_of_iff
    (g.length = n1 ∧ ∀ p ∈ g, p.length = n2 ∧ ∀ r ∈ p, r.length = n3)
    Iff.rfl

/-! ### The `from_real_voxel_grid` factories

Nested-list embedding of `AbstractFourierVoxelGrid.from_real_voxel_grid`
and `RealVoxelGrid.from_real_voxel_grid`, over `ℚ`-valued real grids.  The
array helpers `pad_to_shape`, `crop_to_shape`, `fftn` and the coordinate
objects are imported from `cryojax.image` / `cryojax.coordinates`, whose
files are not under `src/`; they are modelled from the spec below.  The
validation logic (`pad_scale` / `crop_scale` checks) is translated from
`_voxel_potential.py` itself. -/

/-- Python's `int()` on a rational: truncation toward zero. -/
def pythonInt (q : ℚ) : ℤ :=
  if 0 ≤ q then ⌊q⌋ else ⌈q⌉

/-- `tuple([int(s * scale) for s in shape])` — the padded shape of
`AbstractFourierVoxelGrid.from_real_voxel_grid` and the cropped shape of
`RealVoxelGrid.from_real_voxel_grid`. -/
def scaled_shape (shape : List ℕ) (scale : ℚ) : List ℤ :=
  shape.map (fun s => pythonInt (s * scale))

/-- Modelled from the spec: `pad_to_shape` (from `cryojax.image`, not under
`src/`) pads an array with the boundary mode (`"constant"`, i.e. zeros, in
the factory default) to the requested shape.  The placement of the
original block inside the padded array is immaterial to every claim below;
entries beyond the original extents read as zero. -/
def pad_to_shape (g : List (List (List ℚ))) (shape : List ℤ) :
    List (List (List ℚ)) :=
  (List.range (shape.getD 0 0).toNat).map (fun i =>
    (List.range (shape.getD 1 0).toNat).map (fun j =>
      (List.range (shape.getD 2 0).toNat).map (fun k =>
        ((g.getD i []).getD j []).getD k 0)))

/-- Modelled from the spec: `crop_to_shape` (from `cryojax.image`, not
under `src/`) crops an array to the requested shape; the placement of the
cropped window is immaterial to every claim below. -/
def crop_to_shape (g : List (List (List ℚ))) (shape : List ℤ) :
    List (List (List ℚ)) :=
  (g.take (shape.getD 0 0).toNat).map (fun p =>
    (p.take (shape.getD 1 0).toNat).map (fun r =>
      r.take (shape.getD 2 0).toNat))

/-- Modelled from the spec: the 3-D discrete Fourier transform `fftn` (from
`cryojax.image`, not under `src/`), with the zero-frequency component in
the corner. -/
noncomputable def fftn (g : List (List (List ℚ))) :
    List (List (List ℂ)) :=
  let N1 := g.length
  let N2 := (g.headD []).length
  let N3 := ((g.headD []).headD []).length
  (List.range N1).map (fun k1 =>
    (List.range N2).map (fun k2 =>
      (List.range N3).map (fun k3 =>
        (((List.range N1).map (fun m1 =>
          (((List.range N2).map (fun m2 =>
            (((List.range N3).map (fun m3 =>
              (((g.getD m1 []).getD m2 []).getD m3 0 : ℂ) *
                Complex.exp (-2 * Real.pi * Complex.I *
                  ((k1 * m1 : ℚ) / N1 + (k2 * m2 : ℚ) / N2
                    + (k3 * m3 : ℚ) / N3)))).sum))).sum))).sum))))

/-- One-axis `jnp.fft.fftshift` roll: entry `i` of the output reads entry
`(i - n//2) mod n` of the input, moving the zero-frequency component to
the center. -/
def roll_half {α : Type} (d : α) (l : List α) : List α :=
  (List.range l.length).map (fun i =>
    l.getD ((i + l.length - l.length / 2) % l.length) d)

/-- `jnp.fft.fftshift` on a 3-D nested list: roll every axis by half its
extent. -/
def fftshift3 (g : List (List (List ℂ))) : List (List (List ℂ)) :=
  roll_half [] (g.map (fun p => roll_half [] (p.map (roll_half 0))))

/-- Error outcomes of the `from_real_voxel_grid` factories. -/
inductive VoxelError : Type
  | valueError
deriving DecidableEq

/-- `AbstractFourierVoxelGrid.from_real_voxel_grid` (shared by
`FourierVoxelGrid` and `FourierVoxelGridInterpolator`): validate
`pad_scale`, pad to `tuple(int(s * pad_scale))`, take the FFT (with the
optional filter applied to the corner-origin transform), shift the zero
frequency to the center, and build a `FrequencySlice` on the padded
shape's leading two extents with `half_space=False`.  The synthesized
`FrequencySlice` is an external coordinate object (not under `src/`): it
is modelled by its constructor arguments (shape, half-space flag), which
is all any claim below reads. -/
noncomputable def FourierVoxelGrid.from_real_voxel_grid
    (real_voxel_grid : List (List (List ℚ))) (voxel_size : ℚ)
    (pad_scale : ℚ)
    (filter : Option (List (List (List ℂ)) → List (List (List ℂ)))) :
    Except VoxelError
      (FourierVoxelGrid (List (List (List ℂ))) (List ℕ) Bool ℚ) :=
  if pad_scale < 1 then Except.error VoxelError.valueError
  else
    let padded_shape := scaled_shape (shape3 real_voxel_grid) pad_scale
    let padded_real_voxel_grid := pad_to_shape real_voxel_grid padded_shape
    let fourier_voxel_grid_with_zero_in_corner :=
      match filter with
      | none => fftn padded_real_voxel_grid
      | some f => f (fftn padded_real_voxel_grid)
    let fourier_voxel_grid := fftshift3 fourier_voxel_grid_with_zero_in_corner
    Except.ok ⟨fourier_voxel_grid,
      ⟨(shape3 padded_real_voxel_grid).take 2, false⟩, voxel_size⟩

/-- `RealVoxelGrid.from_real_voxel_grid`: cast, transpose axes 0 and 1
(the `NufftProject` compatibility hack), then — only when no coordinate
grid is supplied — optionally validate `crop_scale` and crop, and
synthesize a `CoordinateGrid` from the (possibly cropped) shape.  The
synthesized `CoordinateGrid` is an external coordinate object (not under
`src/`): it is modelled by its constructor argument (the shape), which is
all any claim below reads. -/
def RealVoxelGrid.from_real_voxel_grid
    (real_voxel_grid : List (List (List ℚ))) (voxel_size : ℚ)
    (coordinate_grid : Option (CoordinateGrid (List ℕ) Unit))
    (crop_scale : Option ℚ) :
    Except VoxelError (RealVoxelGrid (List (List (List ℚ))) (List ℕ) Unit ℚ) :=
  let transposed := transpose2 [] real_voxel_grid
  match coordinate_grid with
  | some cg => Except.ok ⟨transposed, cg, voxel_size⟩
  | none =>
    match crop_scale with
    | some c =>
      if 1 < c then Except.error VoxelError.valueError
      else
        let cropped := crop_to_shape transposed (scaled_shape (shape3 transposed) c)
        Except.ok ⟨cropped, ⟨shape3 cropped, ()⟩, voxel_size⟩
    | none => Except.ok ⟨transposed, ⟨shape3 transposed, ()⟩, voxel_size⟩

/-- A concrete non-cubic (1 x 2 x 1) grid. -/
def exampleNonCubic : List (List (List ℚ)) :=
  [[[1], [2]]]

/-! ### RealVoxelCloud construction

`RealVoxelCloud.from_real_voxel_grid` masks out voxels numerically close
to zero.  Since `jax` arrays are rectangular, grids are embedded here as
functions out of `Fin` index types; `jnp.where` enumerates the surviving
indices in row-major (C) order. -/

/-- `jnp.isclose(a, b, rtol, atol)`: `|a - b| <= atol + rtol * |b|`. -/
def isclose (rtol atol a b : ℚ) : Prop :=
  |a - b| ≤ atol + rtol * |b|

instance (rtol atol a b : ℚ) : Decidable (isclose rtol atol a b) :=
  inferInstanceAs (Decidable (_ ≤ _))

/-- `jnp.transpose(g, axes=[1, 0, 2])` on a function-indexed grid. -/
def transpose_fin {n1 n2 n3 : ℕ} {β : Type}
    (g : Fin n1 → Fin n2 → Fin n3 → β) : Fin n2 → Fin n1 → Fin n3 → β :=
  fun a b c => g b a c

/-- The `(value, coordinate)` pairs retained by the nonzero mask
`jnp.where(~jnp.isclose(real_voxel_grid, 0.0, rtol, atol))` followed by
the gathers `real_voxel_grid[nonzero]` and `coordinate_grid.get()[nonzero]`,
in the row-major order `jnp.where` produces. -/
def cloud_pairs {n1 n2 n3 : ℕ} {V : Type}
    (real_voxel_grid : Fin n1 → Fin n2 → Fin n3 → ℚ)
    (coordinate_grid : Fin n1 → Fin n2 → Fin n3 → V)
    (rtol atol : ℚ) : List (ℚ × V) :=
  (List.finRange n1).flatMap (fun i =>
    (List.finRange n2).flatMap (fun j =>
      (List.finRange n3).filterMap (fun k =>
        if ¬ isclose rtol atol (real_voxel_grid i j k) 0 then
          some (real_voxel_grid i j k, coordinate_grid i j k)
        else none)))

/-- `RealVoxelCloud.from_real_voxel_grid`: cast, transpose axes 0 and 1
(the `NufftProject` compatibility hack), then discard all voxels close to
zero, keeping the surviving values and their coordinates as parallel
sequences.  The optional `coordinate_grid` argument (defaulting to the
external `CoordinateGrid(real_voxel_grid.shape)` coordinate object, whose
class is not under `src/`) is taken explicitly here; it is indexed by the
transposed grid's shape, as in the source. -/
def RealVoxelCloud.from_real_voxel_grid {n1 n2 n3 : ℕ} {V : Type}
    (real_voxel_grid : Fin n1 → Fin n2 → Fin n3 → ℚ) (voxel_size : ℚ)
    (coordinate_grid : Fin n2 → Fin n1 → Fin n3 → V) (rtol atol : ℚ) :
    RealVoxelCloud (List ℚ) (List V) Unit ℚ :=
  let transposed := transpose_fin real_voxel_grid
  let pairs := cloud_pairs transposed coordinate_grid rtol atol
  ⟨pairs.map Prod.fst, ⟨pairs.map Prod.snd, ()⟩, voxel_size⟩

/-! ### Atom-to-voxel rasterization

`evaluate_3d_real_space_gaussian`, `evaluate_3d_atom_potential` and
`build_real_space_voxels_from_atoms` from `_voxel_potential.py`, over `ℝ`
(the Gaussian involves `pi`, `exp` and a fractional power).  Grids are
functions out of `Fin` index types, so the output shape — the coordinate
grid's leading three dimensions — is enforced by the types. -/

/-- `evaluate_3d_real_space_gaussian`: at every grid point, the Peng et al.
Gaussian `exp(-pi * sum_c b_inv * (x_c - pos_c)^2) * a * b_inv^(3/2)` with
`b_inv = 4*pi/b`. -/
noncomputable def evaluate_3d_real_space_gaussian {n1 n2 n3 : ℕ}
    (coordinate_grid_in_angstroms : Fin n1 → Fin n2 → Fin n3 → (Fin 3 → ℝ))
    (atom_position : Fin 3 → ℝ) (a b : ℝ) : Fin n1 → Fin n2 → Fin n3 → ℝ :=
  let b_inverse := 4 * Real.pi / b
  fun i j k =>
    Real.exp (-Real.pi * (∑ c : Fin 3,
        b_inverse * (coordinate_grid_in_angstroms i j k c - atom_position c) ^ 2))
      * a * b_inverse ^ ((3 : ℝ) / 2)

/-- `evaluate_3d_atom_potential`: the sum of the atom's 5 Gaussian form
factor terms (the `vmap` over the `a`/`b` parameter rows followed by the
sum over axis 0). -/
noncomputable def evaluate_3d_atom_potential {n1 n2 n3 : ℕ}
    (coordinate_grid_in_angstroms : Fin n1 → Fin n2 → Fin n3 → (Fin 3 → ℝ))
    (atom_position : Fin 3 → ℝ) (atomic_as atomic_bs : Fin 5 → ℝ) :
    Fin n1 → Fin n2 → Fin n3 → ℝ :=
  fun i j k => ∑ m : Fin 5,
    evaluate_3d_real_space_gaussian coordinate_grid_in_angstroms
      atom_position (atomic_as m) (atomic_bs m) i j k

/-- `build_real_space_voxels_from_atoms`: the `jax.lax.fori_loop` over the
atoms, adding each atom's potential to the buffer, starting from the
all-zero grid of the coordinate grid's leading three dimensions. -/
noncomputable def build_real_space_voxels_from_atoms {n n1 n2 n3 : ℕ}
    (atom_positions : Fin n → Fin 3 → ℝ)
    (ff_a ff_b : Fin n → Fin 5 → ℝ)
    (coordinate_grid_in_angstroms : Fin n1 → Fin n2 → Fin n3 → (Fin 3 → ℝ)) :
    Fin n1 → Fin n2 → Fin n3 → ℝ :=
  (List.finRange n).foldl
    (fun potential t => fun i j k =>
      potential i j k +
        evaluate_3d_atom_potential coordinate_grid_in_angstroms
          (atom_positions t) (ff_a t) (ff_b t) i j k)
    (fun _ _ _ => 0)

/-- Specification of the tridiagonal linear system solved by `solveAux`:
`RowSat d prev y x` states that `x` solves the system whose first row reads
`prev + d * x₀ + x₁ = y₀` and whose later rows read
`xᵢ₋₁ + 4 * xᵢ + xᵢ₊₁ = yᵢ` (with the off-diagonal terms dropped at the
ends).  `RowSat 4 0 y x` says exactly that `x` solves the
`_build_operator` system with right-hand side `y`. -/
inductive RowSat : ℚ → ℚ → List ℚ → List ℚ → Prop where
  | single (d prev y0 x0 : ℚ) :
      prev + d * x0 = y0 → RowSat d prev [y0] [x0]
  | cons (d prev y0 y1 x0 x1 : ℚ) (ys xs : List ℚ) :
      prev + d * x0 + x1 = y0 →
      RowSat 4 x0 (y1 :: ys) (x1 :: xs) →
      RowSat d prev (y0 :: y1 :: ys) (x0 :: x1 :: xs)

end CryojaxSpec

namespace CryojaxSpec

/-- The core Thomas solve returns as many unknowns as equations. -/
theorem solveAuxCore_length {K : Type} [Field K] (ys : List K) :
    ∀ (d y0 : K), (solveAuxCore d y0 ys).length = ys.length + 1 := by
  induction ys with
  | nil => intro d y0; simp [solveAuxCore]
  | cons y1 ys ih => intro d y0; simp [solveAuxCore, ih]

/-- The Thomas solve returns as many unknowns as equations. -/
theorem solveAux_length {K : Type} [Field K] (d : K) (y : List K) :
    (solveAux d y).length = y.length := by
  cases y with
  | nil => simp [solveAux]
  | cons y0 ys => simp [solveAux, solveAuxCore_length]

/-- Shifting lemma for the Thomas recursion: a solution of the eliminated
system (head diagonal `4 - 1/d`, adjusted right-hand side) is a solution of
the original tail rows once the recovered first unknown is carried in. -/
theorem rowSat_shift (d y0 y1 r0 : ℚ) (ys rs : List ℚ) (hd : d ≠ 0)
    (h : RowSat (4 - 1 / d) 0 ((y1 - y0 / d) :: ys) (r0 :: rs)) :
    RowSat 4 ((y0 - r0) / d) (y1 :: ys) (r0 :: rs) := by
  cases h with
  | single _ _ _ _ heq =>
    exact RowSat.single _ _ _ _ (by field_simp at heq ⊢; linarith)
  | cons _ _ _ y2 _ r1 ys' rs' heq htail =>
    exact RowSat.cons _ _ _ _ _ _ _ _ (by field_simp at heq ⊢; linarith) htail

/-- The core Thomas solve `solveAuxCore d y0 ys` satisfies the tridiagonal
system it was asked to solve, for any head diagonal `d ≥ 2` (the invariant
maintained by the recursion starting from `d = 4`). -/
theorem solveAuxCore_rowSat (ys : List ℚ) :
    ∀ (d y0 : ℚ), 2 ≤ d → RowSat d 0 (y0 :: ys) (solveAuxCore d y0 ys) := by
  induction ys with
  | nil =>
    intro d y0 hd
    have hd0 : d ≠ 0 := by positivity
    exact RowSat.single d 0 y0 (y0 / d) (by field_simp)
  | cons y1 ys ih =>
    intro d y0 hd
    have hd0 : d ≠ 0 := by positivity
    have hd' : (2 : ℚ) ≤ 4 - 1 / d := by
      have h1 : 1 / d ≤ 1 / 2 := by
        rw [div_le_div_iff₀ (by positivity) (by norm_num)]; linarith
      linarith
    have hrest := ih (4 - 1 / d) (y1 - y0 / d) hd'
    obtain ⟨r0, rs, hr⟩ : ∃ r0 rs,
        solveAuxCore (4 - 1 / d) (y1 - y0 / d) ys = r0 :: rs := by
      rcases hr : solveAuxCore (4 - 1 / d) (y1 - y0 / d) ys with _ | ⟨r0, rs⟩
      · have := solveAuxCore_length ys (4 - 1 / d) (y1 - y0 / d)
        rw [hr] at this; simp at this
      · exact ⟨r0, rs, rfl⟩
    rw [hr] at hrest
    have hshift := rowSat_shift d y0 y1 r0 ys rs hd0 hrest
    show RowSat d 0 (y0 :: y1 :: ys) (solveAuxCore d y0 (y1 :: ys))
    rw [solveAuxCore, hr]
    exact RowSat.cons _ _ _ _ _ _ _ _ (by simp; field_simp) hshift

/-- The Thomas solve `solveAux d y` satisfies the tridiagonal system it was
asked to solve, for any head diagonal `d ≥ 2`. -/
theorem solveAux_rowSat (y : List ℚ) (d : ℚ) (hd : 2 ≤ d) (hy : y ≠ []) :
    RowSat d 0 y (solveAux d y) := by
  cases y with
  | nil => exact absurd rfl hy
  | cons y0 ys => exact solveAuxCore_rowSat ys d y0 hd

/-- Index-wise reading of `RowSat`: row `i` of the system holds, with
out-of-range neighbor terms equal to `0`. -/
theorem rowSat_getD {d prev : ℚ} {y x : List ℚ} (h : RowSat d prev y x) :
    x.length = y.length ∧ ∀ i, i < y.length →
      (if i = 0 then prev + d * x.getD 0 0
       else x.getD (i - 1) 0 + 4 * x.getD i 0) + x.getD (i + 1) 0
        = y.getD i 0 := by
  induction h with
  | single d prev y0 x0 heq =>
    refine ⟨rfl, fun i hi => ?_⟩
    have hi0 : i = 0 := by simp at hi; omega
    subst hi0
    simpa using heq
  | cons d prev y0 y1 x0 x1 ys xs heq htail ih =>
    refine ⟨by simpa using ih.1, fun i hi => ?_⟩
    match i with
    | 0 => simpa using heq
    | (j + 1) =>
      have hj := ih.2 j (by simpa using hi)
      match j with
      | 0 => simpa using hj
      | (m + 1) => simpa using hj

theorem headD_eq_getD {α : Type} (l : List α) (d : α) :
    l.headD d = l.getD 0 d := by
  cases l <;> simp

theorem getLastD_eq_getD (l : List ℚ) (d : ℚ) :
    l.getLastD d = l.getD (l.length - 1) d := by
  rw [List.getLastD_eq_getLast?, List.getLast?_eq_getElem?,
    List.getD_eq_getElem?_getD]

/-- The right-hand-side vector built by `_construct_vector` has the length
of the interior slice `data[1:-1]`. -/
theorem construct_vector_length {K : Type} [Field K] (data : List K)
    (c2 cnp2 : K) :
    (construct_vector data c2 cnp2).length = data.length - 2 := by
  simp only [construct_vector, List.length_set, List.length_dropLast,
    List.length_drop]
  omega

/-- Entry-wise description of `_construct_vector` for inputs of length at
least 4 (so that the two boundary writes hit distinct slots). -/
theorem construct_vector_getD (data : List ℚ) (c2 cnp2 : ℚ)
    (h4 : 4 ≤ data.length) (i : ℕ) (hi : i < data.length - 2) :
    (construct_vector data c2 cnp2).getD i 0 =
      if i = 0 then data.getD 1 0 - c2
      else if i = data.length - 3 then data.getD (data.length - 2) 0 - cnp2
      else data.getD (1 + i) 0 := by
  have h0 : ((data.drop 1).dropLast).length = data.length - 2 := by
    rw [List.length_dropLast, List.length_drop]
    omega
  have hL1 : (((data.drop 1).dropLast).set 0 (data.getD 1 0 - c2)).length
      = data.length - 2 := by
    rw [List.length_set]
    exact h0
  simp only [construct_vector, hL1]
  rw [List.getD_eq_getElem?_getD, List.getElem?_set, hL1]
  by_cases hin3 : i = data.length - 3
  · rw [if_pos (by omega), if_pos (by omega)]
    rw [if_neg (by omega), if_pos hin3]
    rfl
  · rw [if_neg (by omega), List.getElem?_set]
    by_cases hi0 : i = 0
    · rw [if_pos (by omega), if_pos (by rw [h0]; omega)]
      rw [if_pos hi0]
      rfl
    · rw [if_neg (by omega), List.getElem?_dropLast,
        if_pos (by rw [List.length_drop]; omega), List.getElem?_drop]
      rw [if_neg hi0, if_neg hin3, List.getD_eq_getElem?_getD]

/-- Entry-wise description of the coefficient list assembled by
`_solve_coefficients`: `[c1, c2] ++ cs ++ [cnp2, cnp3]`. -/
theorem assembled_getD (a c2 cnp2 b : ℚ) (cs : List ℚ) (j : ℕ) :
    (([a, c2] ++ cs) ++ [cnp2, b]).getD j 0 =
      if j = 0 then a
      else if j = 1 then c2
      else if j - 2 < cs.length then cs.getD (j - 2) 0
      else if j - 2 = cs.length then cnp2
      else if j - 2 = cs.length + 1 then b
      else 0 := by
  rw [List.append_assoc]
  match j with
  | 0 => simp
  | 1 => simp
  | (m + 2) =>
    have hstep : (([a, c2] ++ (cs ++ [cnp2, b]))).getD (m + 2) 0
        = (cs ++ [cnp2, b]).getD m 0 := by
      simp [List.getD_cons_succ]
    rw [hstep]
    by_cases h : m < cs.length
    · rw [List.getD_append _ _ _ _ h]
      simp only [if_neg (by omega : ¬ m + 2 = 0), if_neg (by omega : ¬ m + 2 = 1)]
      rw [if_pos (by omega : m + 2 - 2 < cs.length)]
      have hm : m + 2 - 2 = m := by omega
      rw [hm]
    · rw [List.getD_append_right _ _ _ _ (le_of_not_lt h)]
      simp only [if_neg (by omega : ¬ m + 2 = 0), if_neg (by omega : ¬ m + 2 = 1)]
      rw [if_neg (by omega : ¬ m + 2 - 2 < cs.length)]
      rcases h' : m - cs.length with _ | t
      · rw [if_pos (by omega : m + 2 - 2 = cs.length)]
        rfl
      · rcases t with _ | t'
        · rw [if_neg (by omega : ¬ m + 2 - 2 = cs.length),
            if_pos (by omega : m + 2 - 2 = cs.length + 1)]
          rfl
        · rw [if_neg (by omega : ¬ m + 2 - 2 = cs.length),
            if_neg (by omega : ¬ m + 2 - 2 = cs.length + 1)]
          rfl

/-- Node-interpolation identity for the spline coefficients: for input data
of length at least 4 and any in-range node index `k`, the weighted sum
`c[k] + 4*c[k+1] + c[k+2]` of `_solve_coefficients` output reproduces
`data[k]` exactly. -/
theorem solve_coefficients_node (data : List ℚ) (h4 : 4 ≤ data.length)
    (k : ℕ) (hk : k < data.length) :
    (solve_coefficients data).getD k 0
      + 4 * (solve_coefficients data).getD (k + 1) 0
      + (solve_coefficients data).getD (k + 2) 0 = data.getD k 0 := by
  simp only [solve_coefficients, linear_solve]
  set n := data.length with hn
  set c2 : ℚ := 1 / 6 * data.getD 0 0 with hc2
  set cnp2 : ℚ := 1 / 6 * data.getD (n - 1) 0 with hcnp2
  set yvec := construct_vector data c2 cnp2 with hyvec
  set cs := solveAux 4 yvec with hcsdef
  have hyl : yvec.length = n - 2 := construct_vector_length data c2 cnp2
  have hcl : cs.length = n - 2 := by
    rw [hcsdef, solveAux_length, hyl]
  have hyne : yvec ≠ [] := by
    apply List.ne_nil_of_length_pos
    omega
  have hrow : RowSat 4 0 yvec cs := solveAux_rowSat yvec 4 (by norm_num) hyne
  have hind := (rowSat_getD hrow).2
  have hyd := fun i hi => construct_vector_getD data c2 cnp2 h4 i hi
  have hA := fun j => assembled_getD (2 * c2 - cs.headD 0) c2 cnp2
    (2 * cnp2 - cs.getLastD 0) cs j
  rw [hA k, hA (k + 1), hA (k + 2), hcl]
  have hk5 : k = 0 ∨ k = 1 ∨ (2 ≤ k ∧ k + 3 ≤ n) ∨ k = n - 2 ∨ k = n - 1 := by
    omega
  rcases hk5 with hk0 | hk1 | ⟨hk2, hk3⟩ | hkn2 | hkn1
  · subst hk0
    rw [if_pos rfl, if_neg (by omega), if_pos rfl,
      if_neg (by omega), if_neg (by omega), if_pos (by omega)]
    rw [headD_eq_getD]
    have h02 : (0 : ℕ) + 2 - 2 = 0 := by omega
    rw [h02]
    have hdd : data.getD 0 0 = 6 * c2 := by rw [hc2]; ring
    rw [hdd]
    ring
  · subst hk1
    rw [if_neg (by omega), if_pos rfl, if_neg (by omega), if_neg (by omega),
      if_pos (by omega), if_neg (by omega), if_neg (by omega),
      if_pos (by omega)]
    have e1 : 1 + 1 - 2 = 0 := by omega
    have e2 : 1 + 2 - 2 = 1 := by omega
    rw [e1, e2]
    have hrow0 := hind 0 (by omega)
    rw [if_pos rfl, hyd 0 (by omega), if_pos rfl] at hrow0
    have e3 : (0 : ℕ) + 1 = 1 := by omega
    rw [e3] at hrow0
    linarith
  · rw [if_neg (by omega), if_neg (by omega), if_pos (by omega),
      if_neg (by omega), if_neg (by omega), if_pos (by omega),
      if_neg (by omega), if_neg (by omega), if_pos (by omega)]
    have hrowk := hind (k - 1) (by omega)
    rw [if_neg (by omega), hyd (k - 1) (by omega), if_neg (by omega),
      if_neg (by omega)] at hrowk
    have e1 : k - 1 - 1 = k - 2 := by omega
    have e2 : k - 1 + 1 = k := by omega
    have e3 : 1 + (k - 1) = k := by omega
    rw [e1, e2, e3] at hrowk
    have e4 : k + 1 - 2 = k - 1 := by omega
    have e5 : k + 2 - 2 = k := by omega
    rw [e4, e5]
    linarith
  · subst hkn2
    rw [if_neg (by omega), if_neg (by omega), if_pos (by omega),
      if_neg (by omega), if_neg (by omega), if_pos (by omega),
      if_neg (by omega), if_neg (by omega), if_neg (by omega),
      if_pos (by omega)]
    have hrowl := hind (n - 3) (by omega)
    rw [if_neg (by omega), hyd (n - 3) (by omega), if_neg (by omega),
      if_pos rfl] at hrowl
    have hout : cs.getD (n - 3 + 1) 0 = 0 := by
      apply List.getD_eq_default
      omega
    rw [hout] at hrowl
    have e1 : n - 2 - 2 = n - 3 - 1 := by omega
    have e2 : n - 2 + 1 - 2 = n - 3 := by omega
    rw [e1, e2]
    linarith
  · subst hkn1
    rw [if_neg (by omega), if_neg (by omega), if_pos (by omega),
      if_neg (by omega), if_neg (by omega), if_neg (by omega),
      if_pos (by omega), if_neg (by omega), if_neg (by omega),
      if_neg (by omega), if_neg (by omega), if_pos (by omega)]
    rw [getLastD_eq_getD, hcl]
    have e1 : n - 1 - 2 = n - 2 - 1 := by omega
    have e2 : n - 1 = n - 1 := rfl
    rw [e1]
    have e3 : data.getD (n - 1) 0 = 6 * cnp2 := by
      rw [hcnp2]; ring
    rw [e3]
    ring

/-- The coefficient list returned by `_solve_coefficients` is four entries
longer than the interior right-hand side. -/
theorem solve_coefficients_length {K : Type} [Field K] (data : List K) :
    (solve_coefficients data).length = data.length - 2 + 4 := by
  simp only [solve_coefficients, linear_solve, List.length_append,
    List.length_cons, List.length_nil, solveAux_length,
    construct_vector_length]
  omega

theorem headD_mem {α : Type} (l : List α) (d : α) (h : l ≠ []) :
    l.headD d ∈ l := by
  cases l with
  | nil => exact absurd rfl h
  | cons a t => simp

theorem getD_mem {α : Type} (l : List α) (j : ℕ) (d : α)
    (h : j < l.length) : l.getD j d ∈ l := by
  rw [List.getD_eq_getElem?_getD, List.getElem?_eq_getElem h]
  exact List.getElem_mem h

theorem transpose2_length {α : Type} (d : α) (rows : List (List α)) :
    (transpose2 d rows).length = (rows.headD []).length := by
  simp [transpose2]

theorem transpose2_mem_length {α : Type} (d : α) (rows : List (List α)) :
    ∀ r ∈ transpose2 d rows, r.length = rows.length := by
  intro r hr
  simp only [transpose2, List.mem_map, List.mem_range] at hr
  obtain ⟨j, _, rfl⟩ := hr
  simp

/-- Transposing the outer two axes of a rectangular 3-D nested list swaps
the first two extents. -/
theorem transpose2_cuboid {α : Type} (g : List (List (List α)))
    (n1 n2 n3 : ℕ) (h : IsCuboid n1 n2 n3 g) (h1 : 1 ≤ n1) :
    IsCuboid n2 n1 n3 (transpose2 [] g) := by
  obtain ⟨hlen, hmem⟩ := h
  have hne : g ≠ [] := List.ne_nil_of_length_pos (by omega)
  have hhead : (g.headD []).length = n2 := (hmem _ (headD_mem g [] hne)).1
  refine ⟨by rw [transpose2_length, hhead], ?_⟩
  intro p hp
  constructor
  · rw [transpose2_mem_length [] g p hp, hlen]
  · intro r hr
    simp only [transpose2, hhead, List.mem_map, List.mem_range] at hp
    obtain ⟨j, hj, rfl⟩ := hp
    simp only [List.mem_map] at hr
    obtain ⟨q, hq, rfl⟩ := hr
    have hql := (hmem q hq).1
    exact (hmem q hq).2 _ (getD_mem q j [] (by omega))

/-- Shape effect of applying the 1-D solve along axis 2 (the innermost
axis) of a rectangular 3-D nested list. -/
theorem cuboid_map_solve_axis2 {K : Type} [Field K]
    (g : List (List (List K))) (n1 n2 n3 : ℕ) (h : IsCuboid n1 n2 n3 g) :
    IsCuboid n1 n2 (n3 - 2 + 4)
      (g.map (fun p => p.map solve_coefficients)) := by
  obtain ⟨hlen, hmem⟩ := h
  refine ⟨by simp [hlen], ?_⟩
  intro p hp
  simp only [List.mem_map] at hp
  obtain ⟨q, hq, rfl⟩ := hp
  refine ⟨by simp [(hmem q hq).1], ?_⟩
  intro r hr
  simp only [List.mem_map] at hr
  obtain ⟨s, hs, rfl⟩ := hr
  rw [solve_coefficients_length, (hmem q hq).2 s hs]

/-- Shape effect of the transpose-solve-transpose pattern that applies the
1-D solve along the first axis of a rectangular 2-D plane. -/
theorem solve_axis1_shape {K : Type} [Field K] (plane : List (List K))
    (n2 n3 : ℕ) (hp : plane.length = n2) (hr : ∀ r ∈ plane, r.length = n3)
    (h2 : 1 ≤ n2) (h3 : 1 ≤ n3) :
    (solve_coefficients_axis1 plane).length = n2 - 2 + 4 ∧
    ∀ r ∈ solve_coefficients_axis1 plane, r.length = n3 := by
  have hpne : plane ≠ [] := List.ne_nil_of_length_pos (by omega)
  have hhead : (plane.headD []).length = n3 := hr _ (headD_mem _ _ hpne)
  have hmlen : ((transpose2 0 plane).map solve_coefficients).length = n3 := by
    rw [List.length_map, transpose2_length, hhead]
  have hmrows : ∀ x ∈ (transpose2 0 plane).map solve_coefficients,
      x.length = n2 - 2 + 4 := by
    intro x hx
    simp only [List.mem_map] at hx
    obtain ⟨y, hy, rfl⟩ := hx
    rw [solve_coefficients_length, transpose2_mem_length 0 plane y hy, hp]
  constructor
  · rw [solve_coefficients_axis1, transpose2_length]
    exact hmrows _ (headD_mem _ [] (List.ne_nil_of_length_pos (by omega)))
  · intro r hrr
    rw [transpose2_mem_length _ _ r hrr, hmlen]

/-- Shape effect of applying the 1-D solve along axis 1 of every plane of a
rectangular 3-D nested list. -/
theorem cuboid_map_solve_axis1 {K : Type} [Field K]
    (g : List (List (List K))) (n1 n2 n3 : ℕ) (h : IsCuboid n1 n2 n3 g)
    (h2 : 1 ≤ n2) (h3' : 1 ≤ n3) :
    IsCuboid n1 (n2 - 2 + 4) n3 (g.map solve_coefficients_axis1) := by
  obtain ⟨hlen, hmem⟩ := h
  refine ⟨by simp [hlen], ?_⟩
  intro p hp
  simp only [List.mem_map] at hp
  obtain ⟨q, hq, rfl⟩ := hp
  exact solve_axis1_shape q n2 n3 (hmem q hq).1 (hmem q hq).2 h2 h3'

/-- The per-axis spline-coefficient solve grows every extent of a
rectangular 3-D grid by 2 (as `extent - 2 + 4`). -/
theorem compute_spline_coefficients_cuboid {K : Type} [Field K]
    (g : List (List (List K))) (n1 n2 n3 : ℕ) (h : IsCuboid n1 n2 n3 g)
    (h1 : 1 ≤ n1) (h2 : 1 ≤ n2) (_h3 : 1 ≤ n3) :
    IsCuboid (n1 - 2 + 4) (n2 - 2 + 4) (n3 - 2 + 4)
      (compute_spline_coefficients g) := by
  have hA := cuboid_map_solve_axis2 g n1 n2 n3 h
  have hB := cuboid_map_solve_axis1 _ n1 n2 (n3 - 2 + 4) hA h2 (by omega)
  have hC := transpose2_cuboid _ n1 (n2 - 2 + 4) (n3 - 2 + 4) hB h1
  have hD := cuboid_map_solve_axis1 _ (n2 - 2 + 4) n1 (n3 - 2 + 4) hC h1
    (by omega)
  have hE := transpose2_cuboid _ (n2 - 2 + 4) (n1 - 2 + 4) (n3 - 2 + 4) hD
    (by omega)
  exact hE

/-- The `.shape` of a rectangular nonempty 3-D nested list is its extent
triple. -/
theorem shape3_of_cuboid {α : Type} (g : List (List (List α)))
    (n1 n2 n3 : ℕ) (h : IsCuboid n1 n2 n3 g) (h1 : 1 ≤ n1) (h2 : 1 ≤ n2) :
    shape3 g = [n1, n2, n3] := by
  obtain ⟨hlen, hmem⟩ := h
  have hne : g ≠ [] := List.ne_nil_of_length_pos (by omega)
  have hp := hmem _ (headD_mem g [] hne)
  have hpne : g.headD [] ≠ [] := List.ne_nil_of_length_pos (by rw [hp.1]; omega)
  have hr := hp.2 _ (headD_mem _ [] hpne)
  show [g.length, (g.headD []).length, ((g.headD []).headD []).length]
    = [n1, n2, n3]
  rw [hlen, hp.1, hr]

/-- Reading every index of a list in order reproduces the list. -/
theorem range_map_getD {α : Type} (d : α) (r : List α) :
    (List.range r.length).map (fun j => r.getD j d) = r := by
  induction r with
  | nil => simp
  | cons a t ih =>
    rw [List.length_cons, List.range_succ_eq_map, List.map_cons,
      List.map_map]
    have hc : ((fun j => (a :: t).getD j d) ∘ Nat.succ)
        = (fun j => t.getD j d) := by
      funext j
      simp [Nat.succ_eq_add_one, List.getD_cons_succ]
    rw [List.getD_cons_zero, hc, ih]

/-- Row `j` of a transposed rectangular nested list is the list of `j`-th
entries of the original rows. -/
theorem transpose2_row {α : Type} (d : α) (rows : List (List α)) (n : ℕ)
    (hr : ∀ r ∈ rows, r.length = n) (hne : rows ≠ []) (j : ℕ) (hj : j < n) :
    (transpose2 d rows).getD j [] = rows.map (fun r => r.getD j d) := by
  have hhead : (rows.headD []).length = n := hr _ (headD_mem _ _ hne)
  rw [transpose2, hhead, List.getD_eq_getElem?_getD, List.getElem?_map,
    List.getElem?_range hj]
  rfl

/-- Transposing the outer two axes twice is the identity on rectangular
nonempty nested lists. -/
theorem transpose2_transpose2 {α : Type} (d : α) (rows : List (List α))
    (n : ℕ) (hr : ∀ r ∈ rows, r.length = n) (hne : rows ≠ []) (hn : 1 ≤ n) :
    transpose2 d (transpose2 d rows) = rows := by
  have hhead : (rows.headD []).length = n := hr _ (headD_mem _ _ hne)
  have hTlen : (transpose2 d rows).length = n := by
    rw [transpose2_length, hhead]
  have hThead : ((transpose2 d rows).headD []).length = rows.length := by
    have h0 : (transpose2 d rows).headD [] = rows.map (fun r => r.getD 0 d) := by
      rw [headD_eq_getD]
      exact transpose2_row d rows n hr hne 0 (by omega)
    rw [h0, List.length_map]
  rw [transpose2, hThead]
  have key : ∀ i, i < rows.length →
      (transpose2 d rows).map (fun t => t.getD i d) = rows.getD i [] := by
    intro i hi
    rw [transpose2, hhead, List.map_map]
    have hmap : ∀ j ∈ List.range n,
        ((fun t => t.getD i d) ∘ fun j => rows.map (fun r => r.getD j d)) j
          = (rows.getD i []).getD j d := by
      intro j _
      show (rows.map (fun r => r.getD j d)).getD i d = (rows.getD i []).getD j d
      rw [List.getD_eq_getElem?_getD, List.getElem?_map,
        List.getElem?_eq_getElem hi]
      rw [List.getD_eq_getElem?_getD (rows.getD i []) j d,
        List.getD_eq_getElem?_getD rows i []]
      rw [List.getElem?_eq_getElem hi]
      simp
    rw [List.map_congr_left hmap]
    have hlen : (rows.getD i []).length = n :=
      hr _ (getD_mem rows i [] hi)
    rw [← hlen, range_map_getD]
  calc (List.range rows.length).map
        (fun j => (transpose2 d rows).map (fun r => r.getD j d))
      = (List.range rows.length).map (fun i => rows.getD i []) := by
        refine List.map_congr_left (fun i hi => ?_)
        exact key i (List.mem_range.mp hi)
    _ = rows := range_map_getD [] rows

/-- A `flatMap` whose function vanishes away from a single element of a
duplicate-free list collapses to that element's image. -/
theorem flatMap_eq_of_single {ι β : Type} (l : List ι) (f : ι → List β)
    (i0 : ι) (hmem : i0 ∈ l) (hnodup : l.Nodup)
    (hother : ∀ i ∈ l, i ≠ i0 → f i = []) :
    l.flatMap f = f i0 := by
  induction l with
  | nil => cases hmem
  | cons a t ih =>
    rw [List.flatMap_cons]
    rcases List.mem_cons.mp hmem with h | hmem'
    · subst h
      have ht : t.flatMap f = [] := by
        refine List.flatMap_eq_nil_iff.mpr (fun i hi => ?_)
        exact hother i (List.mem_cons_of_mem _ hi)
          (fun he => (List.nodup_cons.mp hnodup).1 (he ▸ hi))
      rw [ht, List.append_nil]
    · have ha : f a = [] :=
        hother a (List.mem_cons_self a t)
          (fun he => (List.nodup_cons.mp hnodup).1 (he ▸ hmem'))
      rw [ha, List.nil_append]
      exact ih hmem' (List.nodup_cons.mp hnodup).2
        (fun i hi hne => hother i (List.mem_cons_of_mem _ hi) hne)

/-- A `filterMap` keeping exactly one element of a duplicate-free list
produces that one image. -/
theorem filterMap_eq_of_single {ι β : Type} (l : List ι) (f : ι → Option β)
    (i0 : ι) (b : β) (hmem : i0 ∈ l) (hnodup : l.Nodup) (hi0 : f i0 = some b)
    (hother : ∀ i ∈ l, i ≠ i0 → f i = none) :
    l.filterMap f = [b] := by
  induction l with
  | nil => cases hmem
  | cons a t ih =>
    rcases List.mem_cons.mp hmem with h | hmem'
    · subst h
      rw [List.filterMap_cons_some hi0]
      have ht : t.filterMap f = [] := by
        refine List.filterMap_eq_nil_iff.mpr (fun i hi => ?_)
        exact hother i (List.mem_cons_of_mem _ hi)
          (fun he => (List.nodup_cons.mp hnodup).1 (he ▸ hi))
      rw [ht]
    · rw [List.filterMap_cons_none
        (hother a (List.mem_cons_self a t)
          (fun he => (List.nodup_cons.mp hnodup).1 (he ▸ hmem')))]
      exact ih hmem' (List.nodup_cons.mp hnodup).2
        (fun i hi hne => hother i (List.mem_cons_of_mem _ hi) hne)

/-- Pointwise reading of the atom-accumulation fold: folding grid addition
over a list of atoms from an initial grid sums the per-atom images. -/
theorem foldl_grid_add {n n1 n2 n3 : ℕ}
    (f : Fin n → Fin n1 → Fin n2 → Fin n3 → ℝ) (l : List (Fin n)) :
    ∀ (init : Fin n1 → Fin n2 → Fin n3 → ℝ),
    l.foldl (fun potential t => fun i j k => potential i j k + f t i j k) init
      = fun i j k => init i j k + (l.map (fun t => f t i j k)).sum := by
  induction l with
  | nil =>
    intro init
    funext i j k
    simp
  | cons a t ih =>
    intro init
    rw [List.foldl_cons, ih]
    funext i j k
    simp only [List.map_cons, List.sum_cons]
    ring

/-- The gather `get_with_fill` at an in-range natural index reads the
array. -/
theorem get_with_fill_ofNat (l : List ℚ) (k : ℕ) (hk : k < l.length)
    (cval : ℚ) : get_with_fill l (k : ℤ) cval = l.getD k 0 := by
  rw [get_with_fill, if_pos ⟨Int.natCast_nonneg k, by exact_mod_cast hk⟩]
  simp

theorem spline_basis_one : spline_basis 1 = 1 := by
  norm_num [spline_basis]

theorem spline_basis_zero : spline_basis 0 = 4 := by
  norm_num [spline_basis]

theorem spline_basis_neg_one : spline_basis (-1) = 1 := by
  norm_num [spline_basis]

theorem spline_basis_neg_two : spline_basis (-2) = 0 := by
  norm_num [spline_basis]

/-- At an integer coordinate `k`, the 1-D spline evaluation reduces to the
weighted coefficient sum `c[k] + 4*c[k+1] + c[k+2]` (the fourth tap gets
basis weight `B(-2) = 0`). -/
theorem spline_point_node (coeffs : List ℚ) (k : ℕ) (cval : ℚ)
    (hk : k + 2 < coeffs.length) :
    spline_point coeffs (k : ℚ) cval
      = coeffs.getD k 0 + 4 * coeffs.getD (k + 1) 0 + coeffs.getD (k + 2) 0 := by
  have hr : List.range 4 = [0, 1, 2, 3] := rfl
  rw [spline_point, hr]
  simp only [List.map_cons, List.map_nil, List.sum_cons, List.sum_nil,
    Int.floor_natCast]
  have e0 : (k : ℤ) + ((0 : ℕ) : ℤ) = ((k : ℕ) : ℤ) := by push_cast; ring
  have e1 : (k : ℤ) + ((1 : ℕ) : ℤ) = ((k + 1 : ℕ) : ℤ) := by push_cast; ring
  have e2 : (k : ℤ) + ((2 : ℕ) : ℤ) = ((k + 2 : ℕ) : ℤ) := by push_cast; ring
  have e3 : (k : ℤ) + ((3 : ℕ) : ℤ) = ((k + 3 : ℕ) : ℤ) := by push_cast; ring
  rw [e0, e1, e2, e3]
  have b0 : (k : ℚ) - (((k : ℕ) : ℤ) : ℚ) + 1 = 1 := by push_cast; ring
  have b1 : (k : ℚ) - (((k + 1 : ℕ) : ℤ) : ℚ) + 1 = 0 := by push_cast; ring
  have b2 : (k : ℚ) - (((k + 2 : ℕ) : ℤ) : ℚ) + 1 = -1 := by push_cast; ring
  have b3 : (k : ℚ) - (((k + 3 : ℕ) : ℤ) : ℚ) + 1 = -2 := by push_cast; ring
  rw [b0, b1, b2, b3, spline_basis_one, spline_basis_zero,
    spline_basis_neg_one, spline_basis_neg_two]
  rw [get_with_fill_ofNat coeffs k (by omega) cval,
    get_with_fill_ofNat coeffs (k + 1) (by omega) cval,
    get_with_fill_ofNat coeffs (k + 2) (by omega) cval]
  ring

/-- Order-0 output point at an integer in-range coordinate. -/
theorem nearest_node (input : List ℚ) (k : ℕ) (hk : k < input.length)
    (cval : ℚ) :
    weighted_contributions input (nearest_indices_and_weights (k : ℚ)) cval
      = input.getD k 0 := by
  have hround : round_half_away_from_zero (k : ℚ) = (k : ℤ) := by
    rw [round_half_away_from_zero, if_pos (by positivity)]
    have : ((k : ℚ) + 1 / 2) = ((k : ℤ) : ℚ) + 1 / 2 := by push_cast; ring
    rw [this, Int.floor_int_add]
    norm_num
  simp only [weighted_contributions, nearest_indices_and_weights, hround,
    List.map_cons, List.map_nil, List.sum_cons, List.sum_nil]
  rw [get_with_fill_ofNat input k hk cval]
  ring

/-- Order-1 output point at an integer in-range coordinate: the upper
neighbor receives weight 0. -/
theorem linear_node (input : List ℚ) (k : ℕ) (hk : k < input.length)
    (cval : ℚ) :
    weighted_contributions input (linear_indices_and_weights (k : ℚ)) cval
      = input.getD k 0 := by
  simp only [weighted_contributions, linear_indices_and_weights,
    Int.floor_natCast, List.map_cons, List.map_nil, List.sum_cons,
    List.sum_nil]
  have hw : (k : ℚ) - ((k : ℤ) : ℚ) = 0 := by push_cast; ring
  rw [hw, get_with_fill_ofNat input k hk cval]
  ring

/-- Order-3 output point at an integer in-range coordinate, for inputs of
length at least 4: spline interpolation reproduces the sample. -/
theorem cubic_node (input : List ℚ) (h4 : 4 ≤ input.length) (k : ℕ)
    (hk : k < input.length) (cval : ℚ) :
    spline_point (solve_coefficients input) (k : ℚ) cval
      = input.getD k 0 := by
  rw [spline_point_node (solve_coefficients input) k cval
    (by rw [solve_coefficients_length]; omega)]
  exact solve_coefficients_node input h4 k hk

end CryojaxSpec

namespace CryojaxSpec

/-- C1: for every voxel-potential instance and every pose, `rotate_to_pose`
returns a new instance in which only the geometry field's array is replaced
— computed with `inverse=True` for the two Fourier-space variants and
`inverse=False` for the two real-space variants — while the stored voxel
array / weights / coefficients, the voxel size, and the geometry object's
static metadata are unchanged. -/
theorem claim_C1_rotate_to_pose :
    (∀ (V A M R : Type) (v : FourierVoxelGrid V A M R) (pose : AbstractPose A),
      (v.rotate_to_pose pose).fourier_voxel_grid = v.fourier_voxel_grid ∧
      (v.rotate_to_pose pose).voxel_size = v.voxel_size ∧
      (v.rotate_to_pose pose).frequency_slice.metadata
        = v.frequency_slice.metadata ∧
      (v.rotate_to_pose pose).frequency_slice.array
        = pose.rotate_coordinates v.frequency_slice.get true) ∧
    (∀ (V A M R : Type) (v : FourierVoxelGridInterpolator V A M R)
        (pose : AbstractPose A),
      (v.rotate_to_pose pose).coefficients = v.coefficients ∧
      (v.rotate_to_pose pose).voxel_size = v.voxel_size ∧
      (v.rotate_to_pose pose).frequency_slice.metadata
        = v.frequency_slice.metadata ∧
      (v.rotate_to_pose pose).frequency_slice.array
        = pose.rotate_coordinates v.frequency_slice.get true) ∧
    (∀ (V A M R : Type) (v : RealVoxelGrid V A M R) (pose : AbstractPose A),
      (v.rotate_to_pose pose).real_voxel_grid = v.real_voxel_grid ∧
      (v.rotate_to_pose pose).voxel_size = v.voxel_size ∧
      (v.rotate_to_pose pose).coordinate_grid.metadata
        = v.coordinate_grid.metadata ∧
      (v.rotate_to_pose pose).coordinate_grid.array
        = pose.rotate_coordinates v.coordinate_grid.get false) ∧
    (∀ (V A M R : Type) (v : RealVoxelCloud V A M R) (pose : AbstractPose A),
      (v.rotate_to_pose pose).voxel_weights = v.voxel_weights ∧
      (v.rotate_to_pose pose).voxel_size = v.voxel_size ∧
      (v.rotate_to_pose pose).coordinate_list.metadata
        = v.coordinate_list.metadata ∧
      (v.rotate_to_pose pose).coordinate_list.array
        = pose.rotate_coordinates v.coordinate_list.get false) :=
  ⟨fun _ _ _ _ _ _ => ⟨rfl, rfl, rfl, rfl⟩,
   fun _ _ _ _ _ _ => ⟨rfl, rfl, rfl, rfl⟩,
   fun _ _ _ _ _ _ => ⟨rfl, rfl, rfl, rfl⟩,
   fun _ _ _ _ _ _ => ⟨rfl, rfl, rfl, rfl⟩⟩

/-- C2 counterexample: interpolation at grid nodes is NOT exact for order 3
on every input.  For the length-3 input `[6, 0, 0]`, the two boundary
adjustments of `_construct_vector` overwrite the same (single) slot of the
right-hand side, and `map_coordinates` at the in-range integer coordinate
`1` returns `1` instead of the stored value `0`. -/
theorem claim_C2_counterexample :
    map_coordinates [6, 0, 0] [[(1 : ℚ)]] 3 0 = Except.ok [1] ∧
    ([6, 0, 0] : List ℚ).getD 1 0 = 0 := by
  have hsc : solve_coefficients (K := ℚ) [6, 0, 0] = [2, 1, 0, 0, 0] := by
    norm_num [solve_coefficients, construct_vector, linear_solve, solveAux,
      solveAuxCore, List.getD]
  have hsp : spline_point (solve_coefficients (K := ℚ) [6, 0, 0]) 1 0 = 1 := by
    rw [hsc, spline_point]
    have hr : List.range 4 = [0, 1, 2, 3] := rfl
    rw [hr, Int.floor_one]
    simp only [List.map_cons, List.map_nil, List.sum_cons, List.sum_nil]
    norm_num [get_with_fill, List.getD]
    rw [spline_basis_one, spline_basis_zero, spline_basis_neg_one,
      spline_basis_neg_two]
    norm_num [show Int.toNat 2 = 2 from rfl, show Int.toNat 3 = 3 from rfl]
  refine ⟨?_, by norm_num [List.getD]⟩
  rw [map_coordinates, if_neg (by simp), if_neg (by omega), if_neg (by omega),
    if_pos rfl, List.headD_cons, cubic_spline]
  simp only [List.map_cons, List.map_nil]
  rw [hsp]

/-- C2 (amended): for every input array and integer in-range grid
coordinates, `map_coordinates` returns exactly the input values at those
positions for orders 0 and 1; for order 3 the same holds provided the input
has length at least 4 (it fails for length 3, see the counterexample). -/
theorem claim_C2_node_exactness (input : List ℚ) (ks : List ℕ) (cval : ℚ)
    (hin : ∀ k ∈ ks, k < input.length) :
    map_coordinates input [ks.map (fun (k : ℕ) => (k : ℚ))] 0 cval
      = Except.ok (ks.map (fun k => input.getD k 0)) ∧
    map_coordinates input [ks.map (fun (k : ℕ) => (k : ℚ))] 1 cval
      = Except.ok (ks.map (fun k => input.getD k 0)) ∧
    (4 ≤ input.length →
      map_coordinates input [ks.map (fun (k : ℕ) => (k : ℚ))] 3 cval
        = Except.ok (ks.map (fun k => input.getD k 0))) := by
  refine ⟨?_, ?_, fun h4 => ?_⟩
  · rw [map_coordinates, if_neg (by simp), if_pos rfl]
    rw [List.headD_cons, List.map_map]
    congr 1
    refine List.map_congr_left (fun k hk => ?_)
    exact nearest_node input k (hin k hk) cval
  · rw [map_coordinates, if_neg (by simp), if_neg (by omega), if_pos rfl]
    rw [List.headD_cons, List.map_map]
    congr 1
    refine List.map_congr_left (fun k hk => ?_)
    exact linear_node input k (hin k hk) cval
  · rw [map_coordinates, if_neg (by simp), if_neg (by omega),
      if_neg (by omega), if_pos rfl]
    rw [List.headD_cons, cubic_spline, List.map_map]
    congr 1
    refine List.map_congr_left (fun k hk => ?_)
    exact cubic_node input h4 k (hin k hk) cval

/-- C2 witness: on the length-4 input `[1, 5, 2, 7]` and the full list of
integer grid coordinates, all three hypotheses of the amended claim hold
and order-3 interpolation reproduces the input. -/
theorem claim_C2_node_exactness_witness :
    (∀ k ∈ [0, 1, 2, 3], k < ([1, 5, 2, 7] : List ℚ).length) ∧
    map_coordinates [1, 5, 2, 7]
        [List.map (fun (k : ℕ) => (k : ℚ)) [0, 1, 2, 3]] 3 0
      = Except.ok
          (List.map (fun k => ([1, 5, 2, 7] : List ℚ).getD k 0) [0, 1, 2, 3]) :=
  ⟨by decide,
   (claim_C2_node_exactness [1, 5, 2, 7] [0, 1, 2, 3] 0 (by decide)).2.2
     (by decide)⟩

/-- C3 counterexample: on a 3x3x3 fourier grid the constructed
`FourierVoxelGridInterpolator` has `shape == (3, 3, 3)` — the input grid's
shape, since the stored coefficient grid is 2 larger per axis — and not
`tuple(s - 2 for s in fourier_grid.shape) == (1, 1, 1)` as claimed. -/
theorem claim_C3_counterexample :
    (FourierVoxelGridInterpolator.of_fourier_voxel_grid exampleCube3
        (⟨(), ()⟩ : FrequencySlice Unit Unit) 1).shape = [3, 3, 3] ∧
    (shape3 exampleCube3).map (fun s => s - 2) = [1, 1, 1] ∧
    ([3, 3, 3] : List ℕ) ≠ [1, 1, 1] := by
  exact ⟨by decide, by decide, by decide⟩

/-- C3 (amended): for every cubic fourier grid (side at least 3),
`FourierVoxelGridInterpolator(fourier_grid, freq_slice, vs).shape` equals
`fourier_grid.shape` itself — equivalently `tuple(s - 2 for s in
self.coefficients.shape)` — not `tuple(s - 2 for s in
fourier_grid.shape)`. -/
theorem claim_C3_interpolator_shape {K : Type} [Field K] {A M : Type}
    (g : List (List (List K))) (fs : FrequencySlice A M) (vs : ℚ) (n : ℕ)
    (hn : 3 ≤ n) (hcube : IsCuboid n n n g) :
    (FourierVoxelGridInterpolator.of_fourier_voxel_grid g fs vs).shape
      = shape3 g ∧
    shape3 g = [n, n, n] := by
  have hco := compute_spline_coefficients_cuboid g n n n hcube (by omega)
    (by omega) (by omega)
  have hsh := shape3_of_cuboid _ _ _ _ hco (by omega) (by omega)
  have hg := shape3_of_cuboid g n n n hcube (by omega) (by omega)
  refine ⟨?_, hg⟩
  show (shape3 (compute_spline_coefficients g)).map (fun s => s - 2)
    = shape3 g
  rw [hsh, hg]
  have e : n - 2 + 4 - 2 = n := by omega
  simp [e]

/-- C3 witness: the amended shape law instantiated on the concrete 3x3x3
grid. -/
theorem claim_C3_interpolator_shape_witness :
    (FourierVoxelGridInterpolator.of_fourier_voxel_grid exampleCube3
        (⟨(), ()⟩ : FrequencySlice Unit Unit) 1).shape = shape3 exampleCube3 ∧
    shape3 exampleCube3 = [3, 3, 3] :=
  claim_C3_interpolator_shape exampleCube3 ⟨(), ()⟩ 1 3 (by norm_num)
    (by decide)

/-- C4: the code comment and spec promise padding to an even size, but the
padded extent is `int(s * pad_scale)`, which for the 3x3x3 grid at the
(valid) `pad_scale = 1.0` is the odd extent 3 on every axis; construction
proceeds anyway. -/
theorem claim_C4_even_padding :
    scaled_shape (shape3 exampleCube3) 1 = [3, 3, 3] ∧
    ¬ (∀ s ∈ ([3, 3, 3] : List ℤ), Even s) ∧
    (∃ v, FourierVoxelGrid.from_real_voxel_grid exampleCube3 1 1 none
      = Except.ok v) := by
  refine ⟨?_, by decide, ?_⟩
  · have hsh : shape3 exampleCube3 = [3, 3, 3] := by decide
    rw [hsh]
    norm_num [scaled_shape, pythonInt]
  · exact ⟨_, by rw [FourierVoxelGrid.from_real_voxel_grid,
      if_neg (by norm_num)]⟩

/-- C6 counterexample: a non-cubic (1 x 2 x 1) grid is not rejected —
`from_real_voxel_grid` performs no cubic-shape check, so construction
succeeds even though the claim says it must fail with a ValueError. -/
theorem claim_C6_counterexample :
    shape3 exampleNonCubic = [1, 2, 1] ∧ ((1 : ℕ) ≠ 2) ∧
    (∃ v, FourierVoxelGrid.from_real_voxel_grid exampleNonCubic 1 1 none
       = Except.ok v) := by
  refine ⟨by decide, by decide, ?_⟩
  exact ⟨_, by rw [FourierVoxelGrid.from_real_voxel_grid,
    if_neg (by norm_num)]⟩

/-- C6 (amended): the Fourier-variant `from_real_voxel_grid` fails with a
ValueError exactly when `pad_scale < 1.0`, and the RealVoxelGrid variant
exactly when no coordinate grid is supplied and `crop_scale > 1.0`;
non-cubic grids are not rejected (see the counterexample), and all other
inputs construct successfully (the factories are total pure functions). -/
theorem claim_C6_error_conditions :
    (∀ (g : List (List (List ℚ))) (vs ps : ℚ)
        (filt : Option (List (List (List ℂ)) → List (List (List ℂ)))),
      (∃ e, FourierVoxelGrid.from_real_voxel_grid g vs ps filt
        = Except.error e) ↔ ps < 1) ∧
    (∀ (g : List (List (List ℚ))) (vs : ℚ)
        (cg : Option (CoordinateGrid (List ℕ) Unit)) (cs : Option ℚ),
      (∃ e, RealVoxelGrid.from_real_voxel_grid g vs cg cs = Except.error e)
        ↔ (cg = none ∧ ∃ c, cs = some c ∧ 1 < c)) := by
  constructor
  · intro g vs ps filt
    by_cases hps : ps < 1
    · exact ⟨fun _ => hps, fun _ =>
        ⟨_, by rw [FourierVoxelGrid.from_real_voxel_grid, if_pos hps]⟩⟩
    · constructor
      · rintro ⟨e, he⟩
        rw [FourierVoxelGrid.from_real_voxel_grid, if_neg hps] at he
        simp at he
      · intro h
        exact absurd h hps
  · intro g vs cg cs
    match cg with
    | some c0 => simp [RealVoxelGrid.from_real_voxel_grid]
    | none =>
      match cs with
      | some c =>
        by_cases hc : 1 < c
        · refine ⟨fun _ => ⟨rfl, c, rfl, hc⟩,
            fun _ => ⟨VoxelError.valueError, ?_⟩⟩
          simp only [RealVoxelGrid.from_real_voxel_grid]
          rw [if_pos hc]
        · simp [RealVoxelGrid.from_real_voxel_grid, if_neg hc, hc]
      | none => simp [RealVoxelGrid.from_real_voxel_grid]

/-- C10: when an explicit coordinate grid is supplied to
`RealVoxelGrid.from_real_voxel_grid`, the `crop_scale` argument is
silently ignored — no cropping, no error, any value allowed — though the
same `crop_scale > 1.0` raises a ValueError when no coordinate grid is
supplied. -/
theorem claim_C10_crop_scale_ignored :
    (∀ (g : List (List (List ℚ))) (vs : ℚ)
        (cg : CoordinateGrid (List ℕ) Unit) (cs : Option ℚ),
      RealVoxelGrid.from_real_voxel_grid g vs (some cg) cs
        = Except.ok ⟨transpose2 [] g, cg, vs⟩ ∧
      RealVoxelGrid.from_real_voxel_grid g vs (some cg) cs
        = RealVoxelGrid.from_real_voxel_grid g vs (some cg) none) ∧
    (∀ (g : List (List (List ℚ))) (vs c : ℚ), 1 < c →
      RealVoxelGrid.from_real_voxel_grid g vs none (some c)
        = Except.error VoxelError.valueError) := by
  constructor
  · intro g vs cg cs
    exact ⟨rfl, rfl⟩
  · intro g vs c hc
    simp only [RealVoxelGrid.from_real_voxel_grid]
    rw [if_pos hc]

/-- C10 witness: `crop_scale = 2 > 1` raises when no coordinate grid is
supplied. -/
theorem claim_C10_crop_scale_ignored_witness :
    RealVoxelGrid.from_real_voxel_grid exampleCube3 1 none (some 2)
      = Except.error VoxelError.valueError :=
  claim_C10_crop_scale_ignored.2 exampleCube3 1 2 (by norm_num)

/-- C5: both real-space factories process the grid with axes 0 and 1
swapped immediately after casting: the stored `real_voxel_grid` is
`transpose(G, [1, 0, 2])` (for the no-crop paths), equivalently `G` is the
transpose of the stored grid (for rectangular, nonempty `G`); for
`RealVoxelCloud` the transpose is applied before the nonzero masking. -/
theorem claim_C5_axis_transpose :
    (∀ (g : List (List (List ℚ))) (vs : ℚ)
        (cg : CoordinateGrid (List ℕ) Unit),
      RealVoxelGrid.from_real_voxel_grid g vs (some cg) none
        = Except.ok ⟨transpose2 [] g, cg, vs⟩ ∧
      RealVoxelGrid.from_real_voxel_grid g vs none none
        = Except.ok ⟨transpose2 [] g,
            ⟨shape3 (transpose2 [] g), ()⟩, vs⟩) ∧
    (∀ (g : List (List (List ℚ))) (n2 : ℕ), (∀ p ∈ g, p.length = n2) →
      g ≠ [] → 1 ≤ n2 → transpose2 [] (transpose2 [] g) = g) ∧
    (∀ (n1 n2 n3 : ℕ) (V : Type) (g : Fin n1 → Fin n2 → Fin n3 → ℚ)
        (vs : ℚ) (coords : Fin n2 → Fin n1 → Fin n3 → V) (rtol atol : ℚ),
      (RealVoxelCloud.from_real_voxel_grid g vs coords rtol atol).voxel_weights
        = (cloud_pairs (transpose_fin g) coords rtol atol).map Prod.fst ∧
      (RealVoxelCloud.from_real_voxel_grid g vs coords rtol
          atol).coordinate_list.array
        = (cloud_pairs (transpose_fin g) coords rtol atol).map Prod.snd ∧
      (∀ a b c, transpose_fin g a b c = g b a c)) := by
  refine ⟨fun g vs cg => ⟨rfl, rfl⟩, ?_, ?_⟩
  · intro g n2 hr hne hn
    exact transpose2_transpose2 [] g n2 hr hne hn
  · intro n1 n2 n3 V g vs coords rtol atol
    exact ⟨rfl, rfl, fun a b c => rfl⟩

/-- C5 witness: the transpose involution instantiated on the concrete
3x3x3 grid. -/
theorem claim_C5_axis_transpose_witness :
    transpose2 [] (transpose2 [] exampleCube3) = exampleCube3 :=
  claim_C5_axis_transpose.2.1 exampleCube3 3 (by decide) (by decide)
    (by decide)

/-- C8: `build_real_space_voxels_from_atoms` — a sequential fold over the
atoms starting from the all-zero grid — equals the pointwise sum over all
atoms of `evaluate_3d_atom_potential`, which is itself the sum over the 5
Gaussian form-factor terms of
`a * (4*pi/b)^(3/2) * exp(-pi * (4*pi/b) * ||x - pos||^2)`; the output
grid dimensions are the coordinate grid's leading three dimensions (the
index types `Fin n1 → Fin n2 → Fin n3`, enforced by construction). -/
theorem claim_C8_rasterizer {n n1 n2 n3 : ℕ}
    (atom_positions : Fin n → Fin 3 → ℝ) (ff_a ff_b : Fin n → Fin 5 → ℝ)
    (grid : Fin n1 → Fin n2 → Fin n3 → (Fin 3 → ℝ)) :
    (build_real_space_voxels_from_atoms atom_positions ff_a ff_b grid
      = fun i j k => ∑ t : Fin n,
          evaluate_3d_atom_potential grid (atom_positions t) (ff_a t)
            (ff_b t) i j k) ∧
    (∀ (pos : Fin 3 → ℝ) (atomic_as atomic_bs : Fin 5 → ℝ) (i : Fin n1)
        (j : Fin n2) (k : Fin n3),
      evaluate_3d_atom_potential grid pos atomic_as atomic_bs i j k
        = ∑ m : Fin 5, atomic_as m * (4 * Real.pi / atomic_bs m) ^ ((3 : ℝ) / 2)
            * Real.exp (-Real.pi * ((4 * Real.pi / atomic_bs m)
                * ∑ c : Fin 3, (grid i j k c - pos c) ^ 2))) := by
  constructor
  · rw [build_real_space_voxels_from_atoms, foldl_grid_add]
    funext i j k
    rw [Fin.sum_univ_def]
    simp
  · intro pos atomic_as atomic_bs i j k
    simp only [evaluate_3d_atom_potential, evaluate_3d_real_space_gaussian]
    refine Finset.sum_congr rfl (fun m _ => ?_)
    rw [show (∑ c : Fin 3, (4 * Real.pi / atomic_bs m)
          * (grid i j k c - pos c) ^ 2)
        = (4 * Real.pi / atomic_bs m) * ∑ c : Fin 3, (grid i j k c - pos c) ^ 2
      from (Finset.mul_sum _ _ _).symm]
    ring

/-- C9 counterexample: a grid whose single voxel holds the nonzero value
`1e-9` yields zero retained points under the default tolerances
(`rtol = 1e-5`, `atol = 1e-8`), because `|1e-9 - 0| <= atol + rtol*|0|`;
so "exactly one nonzero voxel yields exactly one pair" fails as stated. -/
theorem claim_C9_counterexample :
    ((1 : ℚ) / 1000000000 ≠ 0) ∧
    (RealVoxelCloud.from_real_voxel_grid
        (fun (_ : Fin 1) (_ : Fin 1) (_ : Fin 1) => (1 : ℚ) / 1000000000) 1
        (fun _ _ _ => ((0 : ℚ), (0 : ℚ), (0 : ℚ))) (1 / 100000)
        (1 / 100000000)).voxel_weights = [] := by
  constructor
  · norm_num
  · have hclose : isclose (1 / 100000) (1 / 100000000)
        ((1 : ℚ) / 1000000000) 0 := by
      rw [isclose, sub_zero, abs_zero,
        abs_of_pos (by norm_num : (0 : ℚ) < 1 / 1000000000)]
      norm_num
    have hp : cloud_pairs
        (transpose_fin (fun (_ : Fin 1) (_ : Fin 1) (_ : Fin 1) =>
          (1 : ℚ) / 1000000000))
        (fun _ _ _ => ((0 : ℚ), (0 : ℚ), (0 : ℚ))) (1 / 100000)
        (1 / 100000000) = [] := by
      refine List.flatMap_eq_nil_iff.mpr (fun i _ => ?_)
      refine List.flatMap_eq_nil_iff.mpr (fun j _ => ?_)
      refine List.filterMap_eq_nil_iff.mpr (fun k _ => ?_)
      simp only [transpose_fin]
      rw [if_neg (not_not_intro hclose)]
    show (cloud_pairs _ _ _ _).map Prod.fst = []
    rw [hp]
    rfl

/-- C9 (amended): `RealVoxelCloud.from_real_voxel_grid` yields zero
retained points on a grid all of whose voxels are within tolerance of
zero (in particular on an all-zero grid); a grid with exactly one voxel
OUTSIDE the tolerance yields exactly one `(value, coordinate)` pair — the
value and the coordinate-grid entry at the transposed position; a voxel
`v` is discarded exactly when `|v - 0| <= atol + rtol*|0|`. -/
theorem claim_C9_cloud :
    (∀ (n1 n2 n3 : ℕ) (V : Type) (g : Fin n1 → Fin n2 → Fin n3 → ℚ)
        (vs : ℚ) (coords : Fin n2 → Fin n1 → Fin n3 → V) (rtol atol : ℚ),
      (∀ i j k, isclose rtol atol (g i j k) 0) →
        (RealVoxelCloud.from_real_voxel_grid g vs coords rtol
          atol).voxel_weights = [] ∧
        (RealVoxelCloud.from_real_voxel_grid g vs coords rtol
          atol).coordinate_list.array = []) ∧
    (∀ (n1 n2 n3 : ℕ) (V : Type) (g : Fin n1 → Fin n2 → Fin n3 → ℚ)
        (vs : ℚ) (coords : Fin n2 → Fin n1 → Fin n3 → V) (rtol atol : ℚ)
        (a0 : Fin n1) (b0 : Fin n2) (c0 : Fin n3),
      (∀ a b c, ¬ isclose rtol atol (g a b c) 0 ↔ (a, b, c) = (a0, b0, c0)) →
        (RealVoxelCloud.from_real_voxel_grid g vs coords rtol
          atol).voxel_weights = [g a0 b0 c0] ∧
        (RealVoxelCloud.from_real_voxel_grid g vs coords rtol
          atol).coordinate_list.array = [coords b0 a0 c0]) ∧
    (∀ (V : Type) (v vs : ℚ) (coords : Fin 1 → Fin 1 → Fin 1 → V)
        (rtol atol : ℚ),
      (RealVoxelCloud.from_real_voxel_grid
          (fun (_ : Fin 1) (_ : Fin 1) (_ : Fin 1) => v) vs coords rtol
          atol).voxel_weights
        = if |v - 0| ≤ atol + rtol * |0| then [] else [v]) := by
  refine ⟨?_, ?_, ?_⟩
  · intro n1 n2 n3 V g vs coords rtol atol hclose
    have hp : cloud_pairs (transpose_fin g) coords rtol atol = [] := by
      refine List.flatMap_eq_nil_iff.mpr (fun i _ => ?_)
      refine List.flatMap_eq_nil_iff.mpr (fun j _ => ?_)
      refine List.filterMap_eq_nil_iff.mpr (fun k _ => ?_)
      simp only [transpose_fin]
      rw [if_neg (not_not_intro (hclose j i k))]
    constructor
    · show (cloud_pairs (transpose_fin g) coords rtol atol).map Prod.fst = []
      rw [hp]; rfl
    · show (cloud_pairs (transpose_fin g) coords rtol atol).map Prod.snd = []
      rw [hp]; rfl
  · intro n1 n2 n3 V g vs coords rtol atol a0 b0 c0 hone
    have hp : cloud_pairs (transpose_fin g) coords rtol atol
        = [(g a0 b0 c0, coords b0 a0 c0)] := by
      rw [cloud_pairs]
      rw [flatMap_eq_of_single _ _ b0 (List.mem_finRange b0)
        (List.nodup_finRange n2) ?hbo]
      case hbo =>
        intro j _ hj
        refine List.flatMap_eq_nil_iff.mpr (fun i _ => ?_)
        refine List.filterMap_eq_nil_iff.mpr (fun k _ => ?_)
        simp only [transpose_fin]
        rw [if_neg]
        intro hnc
        have := (hone i j k).mp hnc
        apply hj
        rw [Prod.mk.injEq, Prod.mk.injEq] at this
        exact this.2.1
      rw [flatMap_eq_of_single _ _ a0 (List.mem_finRange a0)
        (List.nodup_finRange n1) ?hao]
      case hao =>
        intro i _ hi
        refine List.filterMap_eq_nil_iff.mpr (fun k _ => ?_)
        simp only [transpose_fin]
        rw [if_neg]
        intro hnc
        have := (hone i b0 k).mp hnc
        apply hi
        rw [Prod.mk.injEq, Prod.mk.injEq] at this
        exact this.1
      refine filterMap_eq_of_single _ _ c0 _ (List.mem_finRange c0)
        (List.nodup_finRange n3) ?_ ?_
      · simp only [transpose_fin]
        rw [if_pos ((hone a0 b0 c0).mpr rfl)]
      · intro k _ hk
        simp only [transpose_fin]
        rw [if_neg]
        intro hnc
        have := (hone a0 b0 k).mp hnc
        apply hk
        rw [Prod.mk.injEq, Prod.mk.injEq] at this
        exact this.2.2
    constructor
    · show (cloud_pairs (transpose_fin g) coords rtol atol).map Prod.fst = _
      rw [hp]; rfl
    · show (cloud_pairs (transpose_fin g) coords rtol atol).map Prod.snd = _
      rw [hp]; rfl
  · intro V v vs coords rtol atol
    have h1 : List.finRange 1 = [(0 : Fin 1)] := rfl
    by_cases h : |v - 0| ≤ atol + rtol * |0|
    · rw [if_pos h]
      have hp : cloud_pairs
          (transpose_fin (fun (_ : Fin 1) (_ : Fin 1) (_ : Fin 1) => v))
          coords rtol atol = [] := by
        refine List.flatMap_eq_nil_iff.mpr (fun i _ => ?_)
        refine List.flatMap_eq_nil_iff.mpr (fun j _ => ?_)
        refine List.filterMap_eq_nil_iff.mpr (fun k _ => ?_)
        have hcl : isclose rtol atol v 0 := h
        simp only [transpose_fin]
        rw [if_neg (not_not_intro hcl)]
      show (cloud_pairs _ _ _ _).map Prod.fst = []
      rw [hp]; rfl
    · rw [if_neg h]
      have hp : cloud_pairs
          (transpose_fin (fun (_ : Fin 1) (_ : Fin 1) (_ : Fin 1) => v))
          coords rtol atol = [(v, coords 0 0 0)] := by
        rw [cloud_pairs, h1]
        rw [List.flatMap_cons, List.flatMap_nil, List.append_nil,
          List.flatMap_cons, List.flatMap_nil, List.append_nil,
          List.filterMap_cons, List.filterMap_nil]
        have hncl : ¬ isclose rtol atol v 0 := h
        simp only [transpose_fin]
        rw [if_pos hncl]
      show (cloud_pairs _ _ _ _).map Prod.fst = [v]
      rw [hp]; rfl

/-- C9 witness: a single voxel of value 1 (far outside the default
tolerances) is retained as exactly one pair. -/
theorem claim_C9_cloud_witness :
    (RealVoxelCloud.from_real_voxel_grid
        (fun (_ : Fin 1) (_ : Fin 1) (_ : Fin 1) => (1 : ℚ)) 1
        (fun _ _ _ => ((0 : ℚ), (0 : ℚ), (0 : ℚ))) (1 / 100000)
        (1 / 100000000)).voxel_weights = [(1 : ℚ)] ∧
    (RealVoxelCloud.from_real_voxel_grid
        (fun (_ : Fin 1) (_ : Fin 1) (_ : Fin 1) => (1 : ℚ)) 1
        (fun _ _ _ => ((0 : ℚ), (0 : ℚ), (0 : ℚ))) (1 / 100000)
        (1 / 100000000)).coordinate_list.array = [((0 : ℚ), (0 : ℚ), (0 : ℚ))] :=
  claim_C9_cloud.2.1 1 1 1 _
    (fun _ _ _ => (1 : ℚ)) 1 (fun _ _ _ => ((0 : ℚ), (0 : ℚ), (0 : ℚ)))
    (1 / 100000) (1 / 100000000) 0 0 0
    (by
      intro a b c
      constructor
      · intro _
        rw [Prod.mk.injEq, Prod.mk.injEq]
        exact ⟨Subsingleton.elim a 0, Subsingleton.elim b 0,
          Subsingleton.elim c 0⟩
      · intro _
        rw [isclose, sub_zero, abs_one, abs_zero]
        norm_num)

/-- C7 counterexample: when the coordinate-count check and the order check
both fail, `_map_coordinates` raises `ValueError` (the length check comes
first), so it is not the case that a `NotImplementedError` is raised
exactly when the order is outside {0, 1, 3}. -/
theorem claim_C7_counterexample :
    (2 : ℕ) ≠ 0 ∧ (2 : ℕ) ≠ 1 ∧ (2 : ℕ) ≠ 3 ∧
    map_coordinates [0] [[], []] 2 0
      = Except.error MapCoordinatesError.valueError ∧
    map_coordinates [0] [[], []] 2 0
      ≠ Except.error MapCoordinatesError.notImplementedError := by
  exact ⟨by decide, by decide, by decide, by decide, by decide⟩

/-- C7 (amended): `map_coordinates` returns the `ValueError` outcome
exactly when the number of coordinate arrays differs from the input's
number of dimensions (1 in this embedding), returns the
`NotImplementedError` outcome exactly when that check passes and the order
is outside {0, 1, 3}, and otherwise succeeds with an output of the
coordinate arrays' shape. -/
theorem claim_C7_errors (input : List ℚ) (coordinates : List (List ℚ))
    (order : ℕ) (cval : ℚ) :
    (map_coordinates input coordinates order cval
        = Except.error MapCoordinatesError.valueError
      ↔ coordinates.length ≠ 1) ∧
    (map_coordinates input coordinates order cval
        = Except.error MapCoordinatesError.notImplementedError
      ↔ (coordinates.length = 1 ∧ order ≠ 0 ∧ order ≠ 1 ∧ order ≠ 3)) ∧
    (coordinates.length = 1 → (order = 0 ∨ order = 1 ∨ order = 3) →
      ∃ output,
        map_coordinates input coordinates order cval = Except.ok output ∧
        output.length = (coordinates.headD []).length) := by
  by_cases h1 : coordinates.length = 1
  · by_cases h0 : order = 0
    · subst h0
      rw [map_coordinates, if_neg (by omega), if_pos rfl]
      exact ⟨by simp [h1], by simp, fun _ _ => ⟨_, rfl, by simp⟩⟩
    · by_cases ho1 : order = 1
      · subst ho1
        rw [map_coordinates, if_neg (by omega), if_neg h0, if_pos rfl]
        exact ⟨by simp [h1], by simp [h0], fun _ _ => ⟨_, rfl, by simp⟩⟩
      · by_cases ho3 : order = 3
        · subst ho3
          rw [map_coordinates, if_neg (by omega), if_neg h0, if_neg ho1,
            if_pos rfl]
          refine ⟨by simp [h1], by simp [ho1], fun _ _ => ⟨_, rfl, ?_⟩⟩
          simp [cubic_spline]
        · rw [map_coordinates, if_neg (by omega), if_neg h0, if_neg ho1,
            if_neg ho3]
          refine ⟨by simp [h1], by simp [h1, h0, ho1, ho3], fun _ hor => ?_⟩
          rcases hor with h | h | h <;> contradiction
  · rw [map_coordinates, if_pos h1]
    refine ⟨⟨fun _ => h1, fun _ => rfl⟩, ?_, fun hc _ => absurd hc h1⟩
    constructor
    · intro h
      exact absurd (Except.error.inj h) (by decide)
    · intro h
      exact absurd h.1 h1

/-- C7 witness: a valid order-1 call with one coordinate array of two
points succeeds and produces two output points. -/
theorem claim_C7_errors_witness :
    ∃ output,
      map_coordinates [(5 : ℚ)] [[0, 1 / 2]] 1 0 = Except.ok output ∧
      output.length = (([[(0 : ℚ), 1 / 2]] : List (List ℚ)).headD []).length :=
  (claim_C7_errors [(5 : ℚ)] [[0, 1 / 2]] 1 0).2.2 (by decide)
    (by decide)

end CryojaxSpec
